import Mathlib

/-!
Verification development for the multi-tool MCP orchestrator.

The definitions below are a shallow embedding of the orchestrator's Python
source into Lean:

* `PyVal` models the dynamic Python values flowing through the system
  (`None`, `bool`, `int`, `str`, `list`, `dict` with string keys, and the
  MCP `TextContent` wrapper).  Floating-point values, escape sequences in
  string literals and non-string dictionary keys do not occur on the code
  paths under study and are not modelled.
* `jsonLoads` models `json.loads` (restricted to the JSON fragment used by
  the code: objects, arrays, integer numbers, escape-free strings,
  `true`/`false`/`null`).
* `pyLitEval` models `ast.literal_eval` on the literal fragment the spec
  names (string/number/bool/list/mapping, plus `None`).
* `parse_function_call` embeds `orchestrator/modules/action.py`.
* `normalize_arguments` embeds the argument-normalization block of
  `MultiMCP.call_tool` in `orchestrator/core/session.py`.
* `initializeMCP` embeds `MultiMCP.initialize`.
* `retrieve` embeds `MemoryManager.retrieve` from
  `orchestrator/modules/memory.py`.
* `agentic_tool_loop` embeds `orchestrator/agent_loop.py`, with the
  planning LLM and the remote tool servers abstracted as an opaque
  environment (`Env`), exactly as the spec treats them (opaque oracle,
  request/response tool boundary).
-/

/-- Characters written by code point to keep string literals plain:
left curly brace. -/
def lcurly : Char := Char.ofNat 123

/-- Right curly brace. -/
def rcurly : Char := Char.ofNat 125

/-- Single-quote character. -/
def squote : Char := Char.ofNat 39

/-- Double-quote character. -/
def dquote : Char := Char.ofNat 34

/-- Backslash character. -/
def bslash : Char := Char.ofNat 92

/-- Dynamic Python values as used by the orchestrator. -/
inductive PyVal where
  | none
  | bool (b : Bool)
  | int (n : Int)
  | str (s : String)
  | list (xs : List PyVal)
  | dict (kvs : List (String × PyVal))
  | textContent (text : String)

/-- Keyword arguments / Python dicts with string keys. -/
abbrev Args := List (String × PyVal)

/-- Python truthiness (`bool(x)`) for the modelled values. -/
def pyTruthy : PyVal → Bool
  | .none => false
  | .bool b => b
  | .int n => n != 0
  | .str s => !s.isEmpty
  | .list xs => !xs.isEmpty
  | .dict d => !d.isEmpty
  | .textContent _ => true

/-- Python `dict` assignment `d[k] = v`: update in place when the key is
present, append otherwise. -/
def dictUpd {α : Type} (d : List (String × α)) (k : String) (v : α) : List (String × α) :=
  if d.any (fun p => p.1 == k) then
    d.map (fun p => if p.1 == k then (k, v) else p)
  else
    d ++ [(k, v)]

/-- Python whitespace predicate used for `str.strip` and `\s`
(`\x0b`/`\x0c` do not occur in the modelled inputs). -/
def pyWs (c : Char) : Bool := c == ' ' || c == '\t' || c == '\n' || c == '\r'

/-- `str.strip()` (structural implementation over the character list;
all string helpers below are list-based so that closed terms evaluate
inside proofs). -/
def pyStrip (s : String) : String :=
  String.mk (((s.toList.dropWhile pyWs).reverse.dropWhile pyWs).reverse)

/-- `s.startswith(p)`. -/
def strStarts (s p : String) : Bool := p.toList.isPrefixOf s.toList

/-- `s.endswith(p)`. -/
def strEnds (s p : String) : Bool := p.toList.isSuffixOf s.toList

/-- `c in s` for a single character. -/
def strHasChar (s : String) (c : Char) : Bool := s.toList.contains c

/-- `s.split(sep)` for a one-character separator (the only kind the
source uses). -/
def splitCharAux (sep : Char) : List Char → List Char → List String → List String
  | [], cur, acc => acc ++ [String.mk cur.reverse]
  | c :: rest, cur, acc =>
    if c == sep then splitCharAux sep rest [] (acc ++ [String.mk cur.reverse])
    else splitCharAux sep rest (c :: cur) acc

/-- `s.split(sep)` for a one-character separator. -/
def splitChar (s : String) (sep : Char) : List String := splitCharAux sep s.toList [] []

/-- `s.replace(c, "")`: remove every occurrence of one character. -/
def removeAllChar (s : String) (c : Char) : String :=
  String.mk (s.toList.filter (fun x => x != c))

/-- `s.lower()` (ASCII). -/
def strLower (s : String) : String := String.mk (s.toList.map Char.toLower)

/-- `s[:n]`. -/
def strTake (s : String) (n : Nat) : String := String.mk (s.toList.take n)

/-- `s[n:]`. -/
def strDropN (s : String) (n : Nat) : String := String.mk (s.toList.drop n)

/-- `s[:-n]`. -/
def strDropLast (s : String) (n : Nat) : String :=
  String.mk (s.toList.take (s.toList.length - n))

/-- `int(s)` for a string already known to consist of digits. -/
def digitsToNat (s : String) : Nat :=
  s.toList.foldl (fun acc c => acc * 10 + (c.toNat - '0'.toNat)) 0

/-- `int(s)`: optional sign and a nonempty run of ASCII digits, with
surrounding whitespace allowed; `Option.none` models a raised
`ValueError`. -/
def pyInt? (s : String) : Option Int :=
  let cs := (s.toList.dropWhile pyWs).reverse.dropWhile pyWs |>.reverse
  let (sign, digits) :=
    match cs with
    | '-' :: rest => (true, rest)
    | '+' :: rest => (false, rest)
    | rest => (false, rest)
  if digits.isEmpty || !digits.all Char.isDigit then Option.none
  else
    let n : Nat := digits.foldl (fun acc c => acc * 10 + (c.toNat - '0'.toNat)) 0
    some (if sign then -(n : Int) else (n : Int))

/-- `str.isdigit()` restricted to ASCII digits. -/
def pyIsDigit (s : String) : Bool := !s.isEmpty && s.toList.all Char.isDigit

/-- `s.split(sep, 1)`: split at the first occurrence of a character. -/
def splitOnce (s : String) (sep : Char) : Option (String × String) :=
  let pre := s.toList.takeWhile (fun c => c != sep)
  match s.toList.drop pre.length with
  | [] => Option.none
  | _ :: rest => some (String.mk pre, String.mk rest)

mutual

/-- Python `repr` for the modelled values (strings are assumed to contain
no quotes or escapes, as on the code paths under study). -/
def pyRepr : PyVal → String
  | .none => "None"
  | .bool true => "True"
  | .bool false => "False"
  | .int n => toString n
  | .str s => String.singleton squote ++ s ++ String.singleton squote
  | .list xs => "[" ++ pyReprList xs ++ "]"
  | .dict d => String.singleton lcurly ++ pyReprDict d ++ String.singleton rcurly
  | .textContent t =>
      "TextContent(text=" ++ String.singleton squote ++ t ++ String.singleton squote ++ ")"

/-- `repr` of list elements, comma separated. -/
def pyReprList : List PyVal → String
  | [] => ""
  | [x] => pyRepr x
  | x :: y :: xs => pyRepr x ++ ", " ++ pyReprList (y :: xs)

/-- `repr` of dict entries, comma separated. -/
def pyReprDict : List (String × PyVal) → String
  | [] => ""
  | [(k, v)] => String.singleton squote ++ k ++ String.singleton squote ++ ": " ++ pyRepr v
  | (k, v) :: p :: xs =>
      String.singleton squote ++ k ++ String.singleton squote ++ ": " ++ pyRepr v ++ ", "
        ++ pyReprDict (p :: xs)

end

/-- Python `str(x)`: the string itself at top level, `repr` otherwise. -/
def pyStr : PyVal → String
  | .str s => s
  | v => pyRepr v

/-- Body of a JSON string up to the closing quote; escape sequences are
outside the model and make the parse fail. -/
def jsonStrBody : List Char → List Char → Option (String × List Char)
  | _, [] => Option.none
  | acc, c :: rest =>
    if c == dquote then some (String.mk acc.reverse, rest)
    else if c == bslash then Option.none
    else jsonStrBody (c :: acc) rest

mutual

/-- `json.loads` value parser on the modelled JSON fragment, with explicit
fuel (always called with enough fuel for the input length). -/
def parseJson : Nat → List Char → Option (PyVal × List Char)
  | 0, _ => Option.none
  | fuel+1, cs =>
    match cs.dropWhile pyWs with
    | [] => Option.none
    | c :: rest =>
      if c == dquote then (jsonStrBody [] rest).map (fun p => (PyVal.str p.1, p.2))
      else if c == lcurly then parseJsonObj fuel rest
      else if c == '[' then parseJsonArr fuel rest
      else if c == '-' || c.isDigit then
        let body := if c == '-' then rest else c :: rest
        let ds := body.takeWhile Char.isDigit
        if ds.isEmpty then Option.none
        else
          let n : Nat := ds.foldl (fun acc d => acc * 10 + (d.toNat - '0'.toNat)) 0
          some (PyVal.int (if c == '-' then -(n : Int) else (n : Int)), body.drop ds.length)
      else if (c :: rest).take 4 = ['t', 'r', 'u', 'e'] then
        some (PyVal.bool true, (c :: rest).drop 4)
      else if (c :: rest).take 5 = ['f', 'a', 'l', 's', 'e'] then
        some (PyVal.bool false, (c :: rest).drop 5)
      else if (c :: rest).take 4 = ['n', 'u', 'l', 'l'] then
        some (PyVal.none, (c :: rest).drop 4)
      else Option.none

/-- JSON array elements after `[`. -/
def parseJsonArr : Nat → List Char → Option (PyVal × List Char)
  | 0, _ => Option.none
  | fuel+1, cs =>
    match cs.dropWhile pyWs with
    | ']' :: rest => some (PyVal.list [], rest)
    | other =>
      match parseJson fuel other with
      | Option.none => Option.none
      | some (v, rest) => parseJsonArrRest fuel [v] rest

/-- JSON array continuation: `, value` repeated until `]`. -/
def parseJsonArrRest : Nat → List PyVal → List Char → Option (PyVal × List Char)
  | 0, _, _ => Option.none
  | fuel+1, acc, cs =>
    match cs.dropWhile pyWs with
    | ']' :: rest => some (PyVal.list acc.reverse, rest)
    | ',' :: rest =>
      match parseJson fuel rest with
      | Option.none => Option.none
      | some (v, rest') => parseJsonArrRest fuel (v :: acc) rest'
    | _ => Option.none

/-- JSON object members after the opening brace. -/
def parseJsonObj : Nat → List Char → Option (PyVal × List Char)
  | 0, _ => Option.none
  | fuel+1, cs =>
    match cs.dropWhile pyWs with
    | c :: rest =>
      if c == rcurly then some (PyVal.dict [], rest)
      else if c == dquote then
        match jsonStrBody [] rest with
        | Option.none => Option.none
        | some (k, rest') =>
          match (rest'.dropWhile pyWs) with
          | ':' :: rest'' =>
            match parseJson fuel rest'' with
            | Option.none => Option.none
            | some (v, rest3) => parseJsonObjRest fuel [(k, v)] rest3
          | _ => Option.none
      else Option.none
    | [] => Option.none

/-- JSON object continuation: `, "key": value` repeated until the closing
brace. -/
def parseJsonObjRest : Nat → List (String × PyVal) → List Char → Option (PyVal × List Char)
  | 0, _, _ => Option.none
  | fuel+1, acc, cs =>
    match cs.dropWhile pyWs with
    | c :: rest =>
      if c == rcurly then some (PyVal.dict acc.reverse, rest)
      else if c == ',' then
        match rest.dropWhile pyWs with
        | c' :: rest' =>
          if c' == dquote then
            match jsonStrBody [] rest' with
            | Option.none => Option.none
            | some (k, rest'') =>
              match rest''.dropWhile pyWs with
              | ':' :: rest3 =>
                match parseJson fuel rest3 with
                | Option.none => Option.none
                | some (v, rest4) => parseJsonObjRest fuel ((k, v) :: acc) rest4
              | _ => Option.none
          else Option.none
        | [] => Option.none
      else Option.none
    | [] => Option.none

end

/-- `json.loads`: parse one JSON value and require only whitespace after
it. -/
def jsonLoads (s : String) : Option PyVal :=
  match parseJson (2 * s.length + 2) s.toList with
  | some (v, rest) => if (rest.dropWhile pyWs).isEmpty then some v else Option.none
  | Option.none => Option.none

/-- Body of a Python string literal up to the closing quote `q`; escape
sequences are outside the model and make the parse fail. -/
def pyStrBody (q : Char) : List Char → List Char → Option (String × List Char)
  | _, [] => Option.none
  | acc, c :: rest =>
    if c == q then some (String.mk acc.reverse, rest)
    else if c == bslash then Option.none
    else pyStrBody q (c :: acc) rest

mutual

/-- `ast.literal_eval` value parser on the literal fragment the spec names
(string/number/bool/list/mapping and `None`), with explicit fuel.
`Option.none` models a raised exception; literals outside the fragment
(floats, tuples, escapes, non-string dict keys) also yield `Option.none`. -/
def parsePyLit : Nat → List Char → Option (PyVal × List Char)
  | 0, _ => Option.none
  | fuel+1, cs =>
    match cs.dropWhile pyWs with
    | [] => Option.none
    | c :: rest =>
      if c == dquote then (pyStrBody dquote [] rest).map (fun p => (PyVal.str p.1, p.2))
      else if c == squote then (pyStrBody squote [] rest).map (fun p => (PyVal.str p.1, p.2))
      else if c == '[' then parsePyLitList fuel rest
      else if c == lcurly then parsePyLitDict fuel rest
      else if c == '-' || c == '+' || c.isDigit then
        let body := if c == '-' || c == '+' then rest else c :: rest
        let ds := body.takeWhile Char.isDigit
        if ds.isEmpty then Option.none
        else
          let n : Nat := ds.foldl (fun acc d => acc * 10 + (d.toNat - '0'.toNat)) 0
          some (PyVal.int (if c == '-' then -(n : Int) else (n : Int)), body.drop ds.length)
      else if (c :: rest).take 4 = ['T', 'r', 'u', 'e'] then
        some (PyVal.bool true, (c :: rest).drop 4)
      else if (c :: rest).take 5 = ['F', 'a', 'l', 's', 'e'] then
        some (PyVal.bool false, (c :: rest).drop 5)
      else if (c :: rest).take 4 = ['N', 'o', 'n', 'e'] then
        some (PyVal.none, (c :: rest).drop 4)
      else Option.none

/-- Python list literal elements after `[`. -/
def parsePyLitList : Nat → List Char → Option (PyVal × List Char)
  | 0, _ => Option.none
  | fuel+1, cs =>
    match cs.dropWhile pyWs with
    | ']' :: rest => some (PyVal.list [], rest)
    | other =>
      match parsePyLit fuel other with
      | Option.none => Option.none
      | some (v, rest) => parsePyLitListRest fuel [v] rest

/-- Python list literal continuation until `]`. -/
def parsePyLitListRest : Nat → List PyVal → List Char → Option (PyVal × List Char)
  | 0, _, _ => Option.none
  | fuel+1, acc, cs =>
    match cs.dropWhile pyWs with
    | ']' :: rest => some (PyVal.list acc.reverse, rest)
    | ',' :: rest =>
      match rest.dropWhile pyWs with
      | ']' :: rest' => some (PyVal.list acc.reverse, rest')
      | other =>
        match parsePyLit fuel other with
        | Option.none => Option.none
        | some (v, rest') => parsePyLitListRest fuel (v :: acc) rest'
    | _ => Option.none

/-- Python dict literal members after the opening brace (string keys
only, as in the modelled inputs). -/
def parsePyLitDict : Nat → List Char → Option (PyVal × List Char)
  | 0, _ => Option.none
  | fuel+1, cs =>
    match cs.dropWhile pyWs with
    | c :: rest =>
      if c == rcurly then some (PyVal.dict [], rest)
      else if c == dquote || c == squote then
        match pyStrBody (if c == dquote then dquote else squote) [] rest with
        | Option.none => Option.none
        | some (k, rest') =>
          match rest'.dropWhile pyWs with
          | ':' :: rest'' =>
            match parsePyLit fuel rest'' with
            | Option.none => Option.none
            | some (v, rest3) => parsePyLitDictRest fuel [(k, v)] rest3
          | _ => Option.none
      else Option.none
    | [] => Option.none

/-- Python dict literal continuation until the closing brace. -/
def parsePyLitDictRest : Nat → List (String × PyVal) → List Char → Option (PyVal × List Char)
  | 0, _, _ => Option.none
  | fuel+1, acc, cs =>
    match cs.dropWhile pyWs with
    | c :: rest =>
      if c == rcurly then some (PyVal.dict acc.reverse, rest)
      else if c == ',' then
        match rest.dropWhile pyWs with
        | c' :: rest' =>
          if c' == rcurly then some (PyVal.dict acc.reverse, rest')
          else if c' == dquote || c' == squote then
            match pyStrBody (if c' == dquote then dquote else squote) [] rest' with
            | Option.none => Option.none
            | some (k, rest'') =>
              match rest''.dropWhile pyWs with
              | ':' :: rest3 =>
                match parsePyLit fuel rest3 with
                | Option.none => Option.none
                | some (v, rest4) => parsePyLitDictRest fuel ((k, v) :: acc) rest4
              | _ => Option.none
          else Option.none
        | [] => Option.none
      else Option.none
    | [] => Option.none

end

/-- `ast.literal_eval`: one literal with only whitespace around it. -/
def pyLitEval (s : String) : Option PyVal :=
  match parsePyLit (2 * s.length + 2) s.toList with
  | some (v, rest) => if (rest.dropWhile pyWs).isEmpty then some v else Option.none
  | Option.none => Option.none

/-- State of the bracket/quote-aware comma splitter of
`parse_function_call` (source lines 82-123). -/
structure SplitSt where
  parts : List String
  current : List Char
  in_quotes : Bool
  quote_char : Char
  paren_level : Int
  bracket_level : Int
  brace_level : Int

/-- One character step of the comma splitter, translated clause for
clause from the source (`quote_char` is only consulted while
`in_quotes`, so storing the last quote char also on exit is harmless). -/
def splitStep (st : SplitSt) (c : Char) : SplitSt :=
  if (c == dquote || c == squote) && (!st.in_quotes || st.quote_char == c) then
    { st with in_quotes := !st.in_quotes, quote_char := c, current := st.current ++ [c] }
  else if c == '(' && !st.in_quotes then
    { st with paren_level := st.paren_level + 1, current := st.current ++ [c] }
  else if c == ')' && !st.in_quotes then
    { st with paren_level := st.paren_level - 1, current := st.current ++ [c] }
  else if c == '[' && !st.in_quotes then
    { st with bracket_level := st.bracket_level + 1, current := st.current ++ [c] }
  else if c == ']' && !st.in_quotes then
    { st with bracket_level := st.bracket_level - 1, current := st.current ++ [c] }
  else if c == lcurly && !st.in_quotes then
    { st with brace_level := st.brace_level + 1, current := st.current ++ [c] }
  else if c == rcurly && !st.in_quotes then
    { st with brace_level := st.brace_level - 1, current := st.current ++ [c] }
  else if c == ',' && !st.in_quotes && st.paren_level == 0 && st.bracket_level == 0
      && st.brace_level == 0 then
    { st with parts := st.parts ++ [pyStrip (String.mk st.current)], current := [] }
  else
    { st with current := st.current ++ [c] }

/-- Split an argument text on commas, respecting quotes and nested
`()[]` and braces; a trailing nonempty part is appended. -/
def commaSplit (args_text : String) : List String :=
  let st := args_text.toList.foldl splitStep
    ⟨[], [], false, dquote, 0, 0, 0⟩
  if (pyStrip (String.mk st.current)).isEmpty then st.parts
  else st.parts ++ [pyStrip (String.mk st.current)]

/-- `\w` word characters (ASCII fragment of the source's regex). -/
def isWordChar (c : Char) : Bool := c.isAlphanum || c == '_'

/-- The call-expression regex `([\w_]+)\s*\((.*)\)\s*$` of the source,
anchored at the start: returns the name and the text between the opening
parenthesis and the last closing parenthesis that is followed only by
whitespace.  `.` does not cross newlines, so a newline in the middle
makes the match fail, as in the source. -/
def parensMatch (ft : String) : Option (String × String) :=
  let cs := ft.toList
  let name := cs.takeWhile isWordChar
  if name.isEmpty then Option.none
  else
    match (cs.drop name.length).dropWhile pyWs with
    | c :: body =>
      if c == '(' then
        match body.reverse.dropWhile pyWs with
        | r :: content_rev =>
          if r == ')' then
            let content := content_rev.reverse
            if content.contains '\n' then Option.none
            else some (String.mk name, String.mk content)
          else Option.none
        | [] => Option.none
      else Option.none
    | [] => Option.none

/-- Value of one `key=val` parameter in the call-expression form: a typed
literal when `ast.literal_eval` accepts it, otherwise the raw string.
(The source's retry that wraps an unquoted value in double quotes
returns the value itself when it succeeds — escape sequences are not
modelled — and falls back to the raw value when it raises, so both
paths collapse to the raw string.) -/
def parensArgVal (val : String) : PyVal :=
  match pyLitEval val with
  | some v => v
  | Option.none => PyVal.str val

/-- The call-expression (parentheses) form of `parse_function_call`
(source lines 72-150). -/
def parensParse (function_text : String) : Option (PyVal × PyVal) :=
  match parensMatch function_text with
  | Option.none => Option.none
  | some (tool_name, args_text0) =>
    let args_text := pyStrip args_text0
    if args_text.isEmpty then some (PyVal.str tool_name, PyVal.dict [])
    else
      let args := (commaSplit args_text).foldl (fun args part =>
        if !(strHasChar part '=') then args
        else
          match splitOnce part '=' with
          | some (key, val) => dictUpd args (pyStrip key) (parensArgVal (pyStrip val))
          | Option.none => args) []
      some (PyVal.str tool_name, PyVal.dict args)

/-- Nested assignment for dotted keys in the pipe form
(`current.setdefault(k, {})` walk); `Option.none` models the exception
raised when an intermediate value is not a dict, which aborts the whole
pipe parse. -/
def pipeSetNested : Args → List String → PyVal → Option Args
  | _, [], _ => Option.none
  | args, k :: rest, v =>
    match rest with
    | [] => some (dictUpd args k v)
    | _ :: _ =>
      match args.lookup k with
      | some (PyVal.dict sub) =>
        (pipeSetNested sub rest v).map (fun sub' => dictUpd args k (PyVal.dict sub'))
      | some _ => Option.none
      | Option.none =>
        (pipeSetNested [] rest v).map (fun sub' => dictUpd args k (PyVal.dict sub'))

/-- The pipe-delimited form of `parse_function_call` (source lines
41-70); `Option.none` models a raised exception, after which the source
falls through to the other formats. -/
def pipeParse (function_text : String) : Option (PyVal × PyVal) :=
  match (splitChar function_text '|').map pyStrip with
  | [] => Option.none
  | tool_name :: param_parts =>
    (param_parts.foldlM (fun args part =>
      if !(strHasChar part '=') then Option.none
      else
        match splitOnce part '=' with
        | some (key, val) =>
          let parsed_val :=
            match pyLitEval val with
            | some v => v
            | Option.none => PyVal.str (pyStrip val)
          pipeSetNested args (splitChar key '.') parsed_val
        | Option.none => Option.none) []).map
      (fun args => (PyVal.str tool_name, PyVal.dict args))

/-- Recognized JSON shapes of `parse_function_call` (source lines
160-172); a non-dict JSON value makes the key lookups raise and is
`Option.none`. -/
def jsonShape (data : PyVal) : Option (PyVal × PyVal) :=
  match data with
  | .dict d =>
    if (d.lookup "tool_name").isSome && (d.lookup "parameters").isSome then
      some (((d.lookup "tool_name").getD PyVal.none), ((d.lookup "parameters").getD PyVal.none))
    else if (d.lookup "tool").isSome && (d.lookup "tool_input").isSome then
      some (((d.lookup "tool").getD PyVal.none), ((d.lookup "tool_input").getD PyVal.none))
    else
      match d.lookup "tool" with
      | some (PyVal.str t) =>
          some (PyVal.str t, PyVal.dict (d.filter (fun p => p.1 != "tool")))
      | _ => Option.none
  | _ => Option.none

/-- The embedded-JSON fallback of `parse_function_call`: the greedy
search `re.search` of a brace-delimited region, i.e. from the first
opening brace to the last closing brace (the source pattern's `.` does
not cross newlines; the modelled inputs are newline-free). -/
def jsonFallback (response : String) : Option (PyVal × PyVal) :=
  let cs := response.toList
  match cs.findIdx? (fun c => c == lcurly) with
  | Option.none => Option.none
  | some i =>
    match cs.reverse.findIdx? (fun c => c == rcurly) with
    | Option.none => Option.none
    | some jr =>
      let j := cs.length - 1 - jr
      if i < j then
        match jsonLoads (String.mk ((cs.drop i).take (j - i + 1))) with
        | some data => jsonShape data
        | Option.none => Option.none
      else Option.none

/-- `parse_function_call` from `orchestrator/modules/action.py`: the pipe
form is attempted first whenever the text after the `FUNCTION_CALL:`
prefix contains a pipe, then the call-expression form, then embedded
JSON; `Option.none` models the final `ValueError`. -/
def parse_function_call (response : String) : Option (PyVal × PyVal) :=
  let response := pyStrip response
  let viaCall :=
    if strStarts response "FUNCTION_CALL:" then
      let function_text := pyStrip (strDropN response ("FUNCTION_CALL:".length))
      match (if strHasChar function_text '|' then pipeParse function_text else Option.none) with
      | some r => some r
      | Option.none => parensParse function_text
    else Option.none
  match viaCall with
  | some r => some r
  | Option.none => jsonFallback response

/-- Scan one `(\w+)\s*=\s*("[^"]*"|[^,]+)` match attempt at the current
position, for the permissive argument grammar of `MultiMCP.call_tool`
(source `core/session.py` lines 64-99). -/
def kvMatchAt (cs : List Char) : Option ((String × String) × List Char) :=
  let key := cs.takeWhile isWordChar
  if key.isEmpty then Option.none
  else
    let rest := (cs.drop key.length).dropWhile pyWs
    match rest with
    | '=' :: rest' =>
      let rest'' := rest'.dropWhile pyWs
      match rest'' with
      | [] => Option.none
      | c :: body =>
        if c == dquote && (body.any (fun ch => ch == dquote)) then
          let inner := body.takeWhile (fun ch => ch != dquote)
          some ((String.mk key, String.mk (dquote :: (inner ++ [dquote]))),
            body.drop (inner.length + 1))
        else
          let v := rest''.takeWhile (fun ch => ch != ',')
          if v.isEmpty then Option.none else some ((String.mk key, String.mk v), rest''.drop v.length)
    | _ => Option.none

/-- `re.findall` scan for the pattern above: try a match at each
position, emit it and continue after it, else advance one character. -/
def kvFindAll : Nat → List Char → List (String × String)
  | 0, _ => []
  | _, [] => []
  | fuel+1, cs@(_ :: rest) =>
    match kvMatchAt cs with
    | some (kv, after) => kv :: kvFindAll fuel after
    | Option.none => kvFindAll fuel rest

/-- Type coercions applied to one matched value (source `core/session.py`
lines 72-97): strip, remove surrounding double quotes, digits to int,
`true`/`false` to bool, bracketed text to a JSON list if it parses. -/
def coerceValue (value0 : String) : PyVal :=
  let value1 := pyStrip value0
  let value :=
    if strStarts value1 (String.singleton dquote) && strEnds value1 (String.singleton dquote) then
      strDropLast (strDropN value1 1) 1
    else value1
  if pyIsDigit value then PyVal.int (digitsToNat value)
  else if strLower value == "true" then PyVal.bool true
  else if strLower value == "false" then PyVal.bool false
  else if strStarts value "[" && strEnds value "]" then
    match jsonLoads value with
    | some v => v
    | Option.none => PyVal.str value
  else PyVal.str value

/-- The permissive `key=value[, key=value...]` fallback grammar of
`MultiMCP.call_tool`. -/
def kvParse (s : String) : Args :=
  (kvFindAll (s.length + 1) s.toList).foldl
    (fun d kv => dictUpd d (pyStrip kv.1) (coerceValue kv.2)) []

/-- Argument normalization of `MultiMCP.call_tool` (source
`core/session.py` lines 55-103): a string argument is JSON-decoded when
possible, otherwise parsed by the permissive grammar; any other value is
passed through unchanged. -/
def normalize_arguments (arguments : PyVal) : PyVal :=
  match arguments with
  | .str s =>
    (match jsonLoads s with
     | some v => v
     | Option.none => PyVal.dict (kvParse s))
  | v => v

/-- A configured MCP server (`{name, url}` entry of the server list). -/
structure ServerConfig where
  name : String
  url : String
deriving DecidableEq

/-- A tool descriptor as listed by a server (only the name is consulted
by the routing logic). -/
structure ToolDesc where
  name : String
deriving DecidableEq

/-- The outcome of connecting to a server and listing its tools:
`Option.none` models any exception while connecting, initializing the
session or listing (caught and logged by the source). -/
abbrev Net := ServerConfig → Option (List ToolDesc)

/-- A routing-table entry: the `(config, tool)` pair stored by
`MultiMCP.initialize` under the tool's name. -/
abbrev ToolMap := List (String × (ServerConfig × ToolDesc))

/-- Merge one reachable server's tool catalog into the routing table
(the inner `for tool in tools.tools` loop). -/
def addServerTools (tm : ToolMap) (config : ServerConfig) (tools : List ToolDesc) : ToolMap :=
  tools.foldl (fun acc tool => dictUpd acc tool.name (config, tool)) tm

/-- `MultiMCP.initialize` (`orchestrator/core/session.py` lines 19-44 and
identically `orchestrator/session.py` lines 29-54): walk the configured
servers, skip any whose connection or listing fails, and merge the
others' catalogs into `tool_map`. -/
def initializeMCP (server_configs : List ServerConfig) (net : Net) : ToolMap :=
  server_configs.foldl (fun tm config =>
    match net config with
    | some tools => addServerTools tm config tools
    | Option.none => tm) []

/-- The routing lookup performed at the head of `MultiMCP.call_tool`:
the server a named tool is dispatched to, or `Option.none` for the
`Tool not found on any server` error. -/
def routeOf (tm : ToolMap) (tool_name : String) : Option ServerConfig :=
  (tm.lookup tool_name).map (fun e => e.1)

/-- Whether `call_tool` would accept the tool name (its routing entry is
present). -/
def knownTool (tm : ToolMap) (tool_name : String) : Bool :=
  (tm.lookup tool_name).isSome

/-- A memory item of `orchestrator/modules/memory.py` (the `embedding`
field is unused by `retrieve`; the float timestamp is modelled as an
integer, which preserves its ordering role). -/
structure MemoryItem where
  text : String
  type : String
  tool_name : Option String
  user_query : Option String
  tags : List String
  session_id : Option String
  timestamp : Int
deriving DecidableEq

/-- `MemoryManager.retrieve` (source lines 39-67): filter by type and
session when those filters are truthy, stable-sort by timestamp most
recent first, and truncate to `top_k`.  The `query` argument is part of
the signature but never consulted. -/
def retrieve (memories : List MemoryItem) (query : String) (top_k : Nat)
    (type_filter : Option String) (session_filter : Option String) : List MemoryItem :=
  if memories.isEmpty then []
  else
    let filtered := memories
    let filtered :=
      match type_filter with
      | some tf => if tf.isEmpty then filtered else filtered.filter (fun m => m.type == tf)
      | Option.none => filtered
    let filtered :=
      match session_filter with
      | some sf => if sf.isEmpty then filtered else filtered.filter (fun m => m.session_id == some sf)
      | Option.none => filtered
    (filtered.mergeSort (fun a b => b.timestamp ≤ a.timestamp)).take top_k

/-- A record appended to the in-session `memory` list of
`agentic_tool_loop` (`{"type": "tool_call", ...}` or
`{"type": "tool_result", ...}` dicts in the source). -/
inductive MemEntry where
  | toolCall (tool_name : String) (input : Args)
  | toolResult (tool_name : String) (result : PyVal) (raw_result : PyVal)

/-- One tool invocation proposed by the LLM (a dict with `tool_name` and
`tool_input`). -/
structure ToolCallReq where
  tool_name : String
  tool_input : Args

/-- The shape of one LLM decision, as discriminated by the source
(lines 31-43): a dict with a truthy `direct_answer`, a list of tool
calls or a dict with a `tool_name` (both become the list to execute),
or anything else. -/
inductive Decision where
  | directAnswer (text : String)
  | toolCalls (calls : List ToolCallReq)
  | invalid

/-- The opaque outside world of the loop: the planning oracle
(`ask_llm_for_tool_decision`, here a function of the step index and of
the memory it is shown) and the dispatch layer (`call_mcp_tool`, total
because the source catches every exception and returns an error dict). -/
structure Env where
  decide : Nat → List MemEntry → Decision
  dispatch : String → Args → PyVal

/-- Observable actions of one loop run, in order: each planning query
(with the memory shown to the oracle), each dispatched tool call (with
the arguments the tool receives), and each message sent through
`send_telegram_message`. -/
inductive Event where
  | planned (memory : List MemEntry) (decision : Decision)
  | dispatched (tool_name : String) (input : Args)
  | sent (text : String)

/-- How a run ended: `returned` models the source's `return` statements,
`exhausted` the fall out of the `for` loop on budget exhaustion, and
`crashed` an uncaught exception (e.g. `int()` on a malformed placeholder
index). -/
inductive Outcome where
  | returned
  | exhausted
  | crashed
deriving DecidableEq

/-- Result of a run: outcome, final memory, event trace. -/
structure LoopResult where
  outcome : Outcome
  memory : List MemEntry
  events : List Event

/-- `isinstance(x, dict) and x.get("error")` — the error check applied
to a raw tool output. -/
def dictError (v : PyVal) : Bool :=
  match v with
  | .dict d => match d.lookup "error" with
    | some e => pyTruthy e
    | Option.none => false
  | _ => false

/-- The `error` value of an error dict (only consulted when `dictError`
holds). -/
def errVal (v : PyVal) : PyVal :=
  match v with
  | .dict d => (d.lookup "error").getD PyVal.none
  | _ => PyVal.none

/-- Whether a value is a list whose items are all strings (the shape
check of the ddg placeholder scan, source lines 52-55). -/
def isStrList : PyVal → Bool
  | .list xs => xs.all (fun x => match x with | .str _ => true | _ => false)
  | _ => false

/-- Scan memory from most recent to oldest for a `ddg_search` result
that is a list of strings (source lines 50-57). -/
def findDdgLinks (memory : List MemEntry) : Option (List PyVal) :=
  memory.reverse.findSome? (fun m =>
    match m with
    | .toolResult t r _ =>
      if t == "ddg_search" && isStrList r then
        match r with
        | .list xs => some xs
        | _ => Option.none
      else Option.none
    | _ => Option.none)

/-- Scan memory from most recent to oldest for an `extract_text` result
that is a string, or a nonempty list whose head carries a `text`
attribute (source lines 74-85); entries of other shapes are passed
over. -/
def findExtractedText (memory : List MemEntry) : Option String :=
  memory.reverse.findSome? (fun m =>
    match m with
    | .toolResult t r _ =>
      if t == "extract_text" then
        match r with
        | .str s => some s
        | .list (PyVal.textContent tx :: _) => some tx
        | _ => Option.none
      else Option.none
    | _ => Option.none)

/-- Scan memory from most recent to oldest for the most recent
`extract_text` result of any shape (source lines 109-113). -/
def findStandings (memory : List MemEntry) : Option PyVal :=
  memory.reverse.findSome? (fun m =>
    match m with
    | .toolResult t r _ => if t == "extract_text" then some r else Option.none
    | _ => Option.none)

/-- Scan memory from most recent to oldest for a `gdrive_create_sheet`
result that is a dict with a truthy `sheet_id` (source lines 127-134). -/
def findSheetId (memory : List MemEntry) : Option PyVal :=
  memory.reverse.findSome? (fun m =>
    match m with
    | .toolResult t r _ =>
      if t == "gdrive_create_sheet" then
        match r with
        | .dict d =>
          match d.lookup "sheet_id" with
          | some v => if pyTruthy v then some v else Option.none
          | Option.none => Option.none
        | _ => Option.none
      else Option.none
    | _ => Option.none)

/-- Split extracted text into pipe-delimited rows for
`gdrive_write_sheet`, keeping empty cells (source lines 88-94). -/
def parseRowsKeepEmpty (text : String) : PyVal :=
  PyVal.list (((splitChar (pyStrip text) '\n').filter (fun l => !(pyStrip l).isEmpty)).map
    (fun l => PyVal.list (((splitChar l '|').map pyStrip).map PyVal.str)))

/-- Split standings text into pipe-delimited rows, dropping empty cells
and empty rows (source lines 115-120). -/
def parseRowsFiltered (text : String) : PyVal :=
  PyVal.list (((splitChar (pyStrip text) '\n').filter (fun l => !(pyStrip l).isEmpty)).filterMap
    (fun l =>
      let cells := ((splitChar l '|').map pyStrip).filter (fun c => !c.isEmpty)
      if cells.isEmpty then Option.none
      else some (PyVal.list (cells.map PyVal.str))))

/-- The stand-in text substituted for an `<extracted_...>` placeholder
when no suitable memory entry exists (source line 74). -/
def noExtractedText : String := "No extracted text found for placeholder."

/-- What happens to one argument value during placeholder substitution
(source lines 48-140): left alone, replaced, or the whole step halts
with an error message sent to the chat, or an exception escapes. -/
inductive ValSubst where
  | keep
  | repl (w : PyVal)
  | halt (msg : String)
  | crash

/-- Placeholder handling for one argument value, translated branch for
branch from the body of `for key, value in list(tool_input.items())`
(source lines 48-140). -/
def substituteValue (memory : List MemEntry) (tool_name key : String) (v : PyVal) : ValSubst :=
  match v with
  | .str value =>
    if strStarts value "<url_from_ddg_search_result_" then
      match findDdgLinks memory with
      | some all_links =>
        if all_links.isEmpty then
          ValSubst.halt ("[Agent Error: No search results found to use for " ++ value ++ "]")
        else
          let url_index_str := removeAllChar ((splitChar value '_').getLastD "") '>'
          match pyInt? url_index_str with
          | Option.none => ValSubst.crash
          | some n =>
            let url_index := n - 1
            if 0 ≤ url_index && url_index < all_links.length then
              ValSubst.repl (all_links.getD url_index.toNat PyVal.none)
            else
              ValSubst.halt ("[Agent Error: Could not find link for " ++ value ++ "]")
      | Option.none =>
        ValSubst.halt ("[Agent Error: No search results found to use for " ++ value ++ "]")
    else if strStarts value "<extracted_" then
      let found_text := (findExtractedText memory).getD noExtractedText
      if tool_name == "gdrive_write_sheet" && key == "values" then
        ValSubst.repl (parseRowsKeepEmpty found_text)
      else
        ValSubst.repl (PyVal.str found_text)
    else if (value == "<f1_standings_extracted_and_formatted>" || value == "<f1_standings_data>")
        && tool_name == "gdrive_write_sheet" && key == "values" then
      match findStandings memory with
      | some r =>
        if pyTruthy r then
          match r with
          | .str s => ValSubst.repl (parseRowsFiltered s)
          | _ => ValSubst.crash
        else ValSubst.repl (PyVal.list [])
      | Option.none => ValSubst.repl (PyVal.list [])
    else if value == "<sheet_id_from_gdrive_create_sheet>"
        || value == "<file_id_from_gdrive_create_sheet>" then
      match findSheetId memory with
      | Option.none => ValSubst.halt "[Agent Error: Could not find previously created sheet ID.]"
      | some v' =>
        match v' with
        | .str s =>
          if s == "No sheet_id found in memory" then
            ValSubst.halt "[Agent Error: Could not find previously created sheet ID.]"
          else ValSubst.repl v'
        | _ => ValSubst.repl v'
    else ValSubst.keep
  | _ => ValSubst.keep

/-- Result of substituting all argument values of one invocation. -/
inductive SubstOut where
  | ok (input : Args)
  | halted (msg : String)
  | crashed

/-- Walk the snapshot of `tool_input.items()`, applying
`substituteValue` and updating the (mutated) argument dict. -/
def substituteItems (memory : List MemEntry) (tool_name : String) :
    List (String × PyVal) → Args → SubstOut
  | [], acc => SubstOut.ok acc
  | (key, v) :: rest, acc =>
    match substituteValue memory tool_name key v with
    | ValSubst.keep => substituteItems memory tool_name rest acc
    | ValSubst.repl w => substituteItems memory tool_name rest (dictUpd acc key w)
    | ValSubst.halt msg => SubstOut.halted msg
    | ValSubst.crash => SubstOut.crashed

/-- Placeholder substitution over a whole `tool_input` dict. -/
def substitutePlaceholders (memory : List MemEntry) (tool_name : String) (input : Args) : SubstOut :=
  substituteItems memory tool_name input input

/-- Extract the links of a `ddg_search` raw output: for each
`TextContent` item with nonempty text, JSON-decode it and keep a truthy
`link` field (source lines 147-156). -/
def ddgLinksOf (items : List PyVal) : List PyVal :=
  items.foldl (fun links it =>
    match it with
    | .textContent t =>
      if t.isEmpty then links
      else
        match jsonLoads t with
        | some (PyVal.dict d) =>
          match d.lookup "link" with
          | some l => if pyTruthy l then links ++ [l] else links
          | Option.none => links
        | _ => links
    | _ => links) []

/-- Post-processing of a raw tool output before it is recorded in memory
(source lines 144-178). -/
def processResult (tool_name : String) (raw : PyVal) : PyVal :=
  if tool_name == "ddg_search" then
    match raw with
    | .list (PyVal.textContent t :: rest) => PyVal.list (ddgLinksOf (PyVal.textContent t :: rest))
    | _ => raw
  else if tool_name == "extract_text" then
    match raw with
    | .list (PyVal.textContent t :: _) => PyVal.str t
    | _ => raw
  else if strStarts tool_name "gdrive_" then
    match raw with
    | .list (PyVal.textContent t :: _) =>
      (match jsonLoads t with
       | some v => v
       | Option.none => PyVal.str t)
    | _ => raw
  else
    match raw with
    | .list (PyVal.textContent t :: _) => PyVal.str t
    | _ => raw

/-- Control outcome of executing the (remainder of the) list of
tool calls of one planning step. -/
inductive ExecCtl where
  | cont
  | ret
  | crashed
deriving DecidableEq

/-- Result of executing (the remainder of) one step's tool-call list. -/
structure ExecRes where
  ctl : ExecCtl
  memory : List MemEntry
  events : List Event

/-- Execute one planning step's ordered tool-call list (the
`for i, tool_call in enumerate(tool_calls_to_execute)` body, source
lines 44-190): substitute placeholders, append the `tool_call` record,
dispatch, append the `tool_result` record, then return on a tool error
(messaging the chat unless the failing tool is the Telegram sender
itself) and return after a successful `telegram_send_message` that is
the last invocation of the list. -/
def execCalls (env : Env) : List ToolCallReq → List MemEntry → List Event → ExecRes
  | [], mem, evs => ⟨ExecCtl.cont, mem, evs⟩
  | c :: rest, mem, evs =>
    match substitutePlaceholders mem c.tool_name c.tool_input with
    | SubstOut.halted msg => ⟨ExecCtl.ret, mem, evs ++ [Event.sent msg]⟩
    | SubstOut.crashed => ⟨ExecCtl.crashed, mem, evs⟩
    | SubstOut.ok tool_input =>
      let mem1 := mem ++ [MemEntry.toolCall c.tool_name tool_input]
      let raw_tool_output := env.dispatch c.tool_name tool_input
      let processed := processResult c.tool_name raw_tool_output
      let mem2 := mem1 ++ [MemEntry.toolResult c.tool_name processed raw_tool_output]
      let evs1 := evs ++ [Event.dispatched c.tool_name tool_input]
      if dictError raw_tool_output then
        if c.tool_name == "telegram_send_message" then ⟨ExecCtl.ret, mem2, evs1⟩
        else
          ⟨ExecCtl.ret, mem2, evs1 ++ [Event.sent ("An error occurred with tool " ++ c.tool_name
            ++ ": " ++ pyStr (errVal raw_tool_output))]⟩
      else if c.tool_name == "telegram_send_message" && rest.isEmpty then
        ⟨ExecCtl.ret, mem2, evs1⟩
      else
        execCalls env rest mem2 evs1

/-- The budget-exhaustion closing message (source lines 192-196). -/
def exhaustMsg (memory : List MemEntry) : String :=
  let final_words := "I\x27ve reached the maximum processing steps for your request."
  match memory.getLast? with
  | some (MemEntry.toolResult _ res raw) =>
    if dictError raw then final_words
    else final_words ++ " Here\x27s the last information I have: " ++ strTake (pyStr res) 200
  | _ => final_words

/-- The `for step in range(max_steps)` loop, with `fuel` the number of
remaining iterations (the step index shown to the oracle is
`max_steps - fuel`). -/
def runSteps (env : Env) (max_steps : Nat) : Nat → List MemEntry → List Event → LoopResult
  | 0, mem, evs => ⟨Outcome.exhausted, mem, evs ++ [Event.sent (exhaustMsg mem)]⟩
  | fuel+1, mem, evs =>
    let d := env.decide (max_steps - (fuel + 1)) mem
    let evs := evs ++ [Event.planned mem d]
    match d with
    | Decision.directAnswer t => ⟨Outcome.returned, mem, evs ++ [Event.sent t]⟩
    | Decision.invalid =>
      ⟨Outcome.returned, mem,
        evs ++ [Event.sent "[Agent Error: LLM did not provide a valid tool call or answer.]"]⟩
    | Decision.toolCalls calls =>
      match execCalls env calls mem evs with
      | ⟨ExecCtl.cont, mem', evs'⟩ => runSteps env max_steps fuel mem' evs'
      | ⟨ExecCtl.ret, mem', evs'⟩ => ⟨Outcome.returned, mem', evs'⟩
      | ⟨ExecCtl.crashed, mem', evs'⟩ => ⟨Outcome.crashed, mem', evs'⟩

/-- `agentic_tool_loop` from `orchestrator/agent_loop.py`: start with
empty memory and run up to `max_steps` planning steps.  The user message
and chat id only feed the oracle prompt and the chat messages and are
absorbed into `Env` and the event trace. -/
def agentic_tool_loop (env : Env) (max_steps : Nat) : LoopResult :=
  runSteps env max_steps max_steps [] []

/-- The planning queries of a trace: the memory shown to the oracle at
each planning decision. -/
def planningSnapshots (evs : List Event) : List (List MemEntry) :=
  evs.filterMap (fun e => match e with | Event.planned m _ => some m | _ => Option.none)

/-- Number of planning iterations in a trace. -/
def planningCount (evs : List Event) : Nat := (planningSnapshots evs).length

/-- The dispatched tool calls of a trace, with the arguments each tool
received. -/
def dispatches (evs : List Event) : List (String × Args) :=
  evs.filterMap (fun e => match e with | Event.dispatched t i => some (t, i) | _ => Option.none)

/-- The chat messages of a trace. -/
def sentMessages (evs : List Event) : List String :=
  evs.filterMap (fun e => match e with | Event.sent t => some t | _ => Option.none)

/-- Number of `tool_call` records in memory. -/
def countCalls (m : List MemEntry) : Nat :=
  (m.filter (fun e => match e with | MemEntry.toolCall _ _ => true | _ => false)).length

/-- Number of `tool_result` records in memory (the loop records tool
errors as `tool_result` entries whose `raw_result` carries the error). -/
def countResults (m : List MemEntry) : Nat :=
  (m.filter (fun e => match e with | MemEntry.toolResult _ _ _ => true | _ => false)).length

/-- Memory that consists of adjacent `tool_call`/`tool_result` pairs with
matching tool names. -/
inductive IsPaired : List MemEntry → Prop
  | nil : IsPaired []
  | pair (t : String) (i : Args) (r raw : PyVal) (rest : List MemEntry) :
      IsPaired rest → IsPaired (MemEntry.toolCall t i :: MemEntry.toolResult t r raw :: rest)

/-- Whether a value is a string (observer used to state facts about
normalization without deep equality). -/
def isStrVal : PyVal → Bool
  | .str _ => true
  | _ => false

/-- The tool-name component of a parse result, when it is a string. -/
def parsedToolName (o : Option (PyVal × PyVal)) : Option String :=
  o.bind (fun p => match p.1 with | .str s => some s | _ => Option.none)

/-- Environment for the error-mid-list scenario: the oracle proposes the
two-invocation plan `[toolA, toolB]` and `toolA` dispatches to an error
dict. -/
def envErrMidList : Env :=
  ⟨fun _ _ => Decision.toolCalls [⟨"toolA", []⟩, ⟨"toolB", []⟩],
   fun t _ => if t == "toolA" then PyVal.dict [("error", PyVal.str "boom")] else PyVal.str "ok"⟩

/-- Environment for the unresolved `<extracted_...>` scenario: the first
plan already consumes an extraction placeholder while memory is empty. -/
def envUnresolvedExtract : Env :=
  ⟨fun _ _ => Decision.toolCalls [⟨"fetch_page", [("text", PyVal.str "<extracted_data>")]⟩],
   fun _ _ => PyVal.str "ok"⟩

/-- A raw `ddg_search` output carrying two result links as JSON-encoded
`TextContent` items. -/
def ddgRawAB : PyVal :=
  PyVal.list [PyVal.textContent "\x7b\"link\": \"https://a\"\x7d",
    PyVal.textContent "\x7b\"link\": \"https://b\"\x7d"]

/-- Placeholder-resolution scenario: search first, then consume the
`N`-th link (parameterized by the placeholder string). -/
def envDdg (ph : String) : Env :=
  ⟨fun step _ =>
    if step == 0 then Decision.toolCalls [⟨"ddg_search", [("query", PyVal.str "f1")]⟩]
    else Decision.toolCalls [⟨"extract_text", [("url", PyVal.str ph)]⟩],
   fun t _ => if t == "ddg_search" then ddgRawAB else PyVal.str "text"⟩

/-- Placeholder consumed with no prior search result in memory. -/
def envDdgNoResult : Env :=
  ⟨fun _ _ =>
    Decision.toolCalls [⟨"extract_text", [("url", PyVal.str "<url_from_ddg_search_result_1>")]⟩],
   fun _ _ => PyVal.str "text"⟩

/-- An oracle that proposes a fresh (successful, non-delivery) tool call
at every step, for the budget-exhaustion scenario. -/
def envAlwaysTool : Env :=
  ⟨fun _ _ => Decision.toolCalls [⟨"fetch", []⟩], fun _ _ => PyVal.str "ok"⟩

/-- Two servers with disjoint catalogs for the routing example. -/
def cfgS1 : ServerConfig := ⟨"S1", "http://s1"⟩

/-- Second server of the routing example. -/
def cfgS2 : ServerConfig := ⟨"S2", "http://s2"⟩

/-- Catalog map of the routing example: `S1` advertises `A` and `B`,
`S2` advertises `C`. -/
def netDisjoint : Net := fun c =>
  if c.name == "S1" then some [⟨"A"⟩, ⟨"B"⟩]
  else if c.name == "S2" then some [⟨"C"⟩]
  else Option.none

/-! Theorems. -/

theorem normalize_nonstr_fixed (v : PyVal) (h : isStrVal v = false) :
    normalize_arguments v = v := by
  cases v <;> simp [isStrVal] at h <;> rfl

/-- C10: `MemoryManager.retrieve` never consults the query text: for any
store contents, `top_k` and filters, two arbitrary query strings produce
exactly the same result list. -/
theorem C10_retrieve_query_independent (memories : List MemoryItem) (q1 q2 : String)
    (top_k : Nat) (type_filter session_filter : Option String) :
    retrieve memories q1 top_k type_filter session_filter
      = retrieve memories q2 top_k type_filter session_filter := rfl

/-- C6 (corrected): normalization is idempotent on every input whose
normalization is not a string — in particular, normalizing a mapping is
a no-op — but not on arbitrary strings (see the counterexample). -/
theorem C6_normalize_idempotent_nonstring (x : PyVal)
    (h : isStrVal (normalize_arguments x) = false) :
    normalize_arguments (normalize_arguments x) = normalize_arguments x :=
  normalize_nonstr_fixed (normalize_arguments x) h

theorem C6_normalize_idempotent_nonstring_witness :
    isStrVal (normalize_arguments (PyVal.dict [("a", PyVal.int 1)])) = false
      ∧ normalize_arguments (normalize_arguments (PyVal.dict [("a", PyVal.int 1)]))
        = normalize_arguments (PyVal.dict [("a", PyVal.int 1)]) :=
  ⟨rfl, C6_normalize_idempotent_nonstring (PyVal.dict [("a", PyVal.int 1)]) rfl⟩

/-- C6 counterexample: the JSON string literal `"hello"` normalizes to
the bare string `hello`, which re-normalizes to the empty mapping, so
`normalize(normalize(x)) ≠ normalize(x)`. -/
theorem C6_counterexample :
    normalize_arguments (PyVal.str "\"hello\"") = PyVal.str "hello"
      ∧ normalize_arguments (PyVal.str "hello") = PyVal.dict []
      ∧ normalize_arguments (normalize_arguments (PyVal.str "\"hello\""))
          ≠ normalize_arguments (PyVal.str "\"hello\"") := by
  refine ⟨rfl, rfl, ?_⟩
  intro h
  rw [show normalize_arguments (PyVal.str "\"hello\"") = PyVal.str "hello" from rfl] at h
  rw [show normalize_arguments (PyVal.str "hello") = PyVal.dict [] from rfl] at h
  exact PyVal.noConfusion h

/-- C1 (corrected): the surface forms are tried pipe-form first — when
the text after the `FUNCTION_CALL:` prefix contains a pipe and the pipe
parse succeeds, its result is returned, even if the text also matches
the call-expression form; the call-expression form is only consulted
when the pipe attempt is inapplicable or fails, and embedded JSON comes
last. -/
theorem C1_pipe_form_first (s : String) (r : PyVal × PyVal)
    (hp : strStarts (pyStrip s) "FUNCTION_CALL:" = true)
    (hc : strHasChar (pyStrip (strDropN (pyStrip s) "FUNCTION_CALL:".length)) '|' = true)
    (hr : pipeParse (pyStrip (strDropN (pyStrip s) "FUNCTION_CALL:".length)) = some r) :
    parse_function_call s = some r := by
  simp only [parse_function_call, hp, if_true, hc, hr]

theorem C1_pipe_form_first_witness :
    parse_function_call "FUNCTION_CALL: t|a=1"
      = some (PyVal.str "t", PyVal.dict [("a", PyVal.int 1)]) :=
  C1_pipe_form_first "FUNCTION_CALL: t|a=1" (PyVal.str "t", PyVal.dict [("a", PyVal.int 1)])
    rfl rfl rfl

/-- C1 counterexample: the decision text
`FUNCTION_CALL: f(a="x|y", b=1)` matches the call-expression form (tool
`f`), but because it contains a pipe the pipe form is tried first and
succeeds, yielding the mangled tool name `f(a="x` instead of `f`. -/
theorem C1_counterexample :
    parsedToolName (parse_function_call "FUNCTION_CALL: f(a=\"x|y\", b=1)")
        = some "f(a=\"x"
      ∧ parsedToolName (parse_function_call "FUNCTION_CALL: f(a=\"x|y\", b=1)")
        ≠ some "f" := by
  constructor
  · rfl
  · intro h
    rw [show parsedToolName (parse_function_call "FUNCTION_CALL: f(a=\"x|y\", b=1)")
      = some "f(a=\"x" from rfl] at h
    simp at h

theorem planningSnapshots_append (a b : List Event) :
    planningSnapshots (a ++ b) = planningSnapshots a ++ planningSnapshots b := by
  simp [planningSnapshots, List.filterMap_append]

theorem IsPaired_append_pair (m : List MemEntry) (t : String) (i : Args) (r raw : PyVal)
    (h : IsPaired m) :
    IsPaired (m ++ [MemEntry.toolCall t i, MemEntry.toolResult t r raw]) := by
  induction h with
  | nil => exact IsPaired.pair t i r raw [] IsPaired.nil
  | pair t' i' r' raw' rest _ ih =>
    rw [List.cons_append, List.cons_append]
    exact IsPaired.pair t' i' r' raw' _ ih

theorem IsPaired_counts (m : List MemEntry) (h : IsPaired m) : countCalls m = countResults m := by
  induction h with
  | nil => rfl
  | pair t i r raw rest _ ih =>
    simp [countCalls, countResults] at *
    omega

theorem execCalls_snapshots (env : Env) (calls : List ToolCallReq) :
    ∀ mem evs, planningSnapshots (execCalls env calls mem evs).events = planningSnapshots evs := by
  induction calls with
  | nil => intro mem evs; rfl
  | cons c rest ih =>
    intro mem evs
    simp only [execCalls]
    cases hs : substitutePlaceholders mem c.tool_name c.tool_input with
    | halted msg => simp [planningSnapshots_append, planningSnapshots]
    | crashed => rfl
    | ok input =>
      by_cases he : dictError (env.dispatch c.tool_name input) = true
      · simp only [he, if_true]
        by_cases ht : (c.tool_name == "telegram_send_message") = true
        · simp [ht, planningSnapshots_append, planningSnapshots]
        · simp [ht, planningSnapshots_append, planningSnapshots]
      · simp only [he]
        by_cases ht : (c.tool_name == "telegram_send_message" && rest.isEmpty) = true
        · simp [ht, planningSnapshots_append, planningSnapshots]
        · simp only [ht, Bool.false_eq_true, if_false, ih]
          simp [planningSnapshots_append, planningSnapshots]

theorem execCalls_paired (env : Env) (calls : List ToolCallReq) :
    ∀ mem evs, IsPaired mem → IsPaired (execCalls env calls mem evs).memory := by
  induction calls with
  | nil => intro mem evs h; exact h
  | cons c rest ih =>
    intro mem evs h
    simp only [execCalls]
    cases hs : substitutePlaceholders mem c.tool_name c.tool_input with
    | halted msg => exact h
    | crashed => exact h
    | ok input =>
      have hpair : IsPaired ((mem ++ [MemEntry.toolCall c.tool_name input])
          ++ [MemEntry.toolResult c.tool_name
            (processResult c.tool_name (env.dispatch c.tool_name input))
            (env.dispatch c.tool_name input)]) := by
        rw [List.append_assoc]
        exact IsPaired_append_pair mem c.tool_name input _ _ h
      by_cases he : dictError (env.dispatch c.tool_name input) = true
      · simp only [he, if_true]
        by_cases ht : (c.tool_name == "telegram_send_message") = true
        · simpa [ht] using hpair
        · simpa [ht] using hpair
      · simp only [he]
        by_cases ht : (c.tool_name == "telegram_send_message" && rest.isEmpty) = true
        · simpa [ht] using hpair
        · simp only [ht, Bool.false_eq_true, if_false]
          exact ih _ _ hpair

theorem snapshots_append_sent (evs : List Event) (t : String) :
    planningSnapshots (evs ++ [Event.sent t]) = planningSnapshots evs := by
  rw [planningSnapshots_append]
  simp [planningSnapshots]

theorem snapshots_mem_append_planned (evs : List Event) (mem : List MemEntry) (d : Decision)
    (hs : ∀ m ∈ planningSnapshots evs, IsPaired m) (h : IsPaired mem) :
    ∀ m ∈ planningSnapshots (evs ++ [Event.planned mem d]), IsPaired m := by
  intro m hm
  rw [planningSnapshots_append] at hm
  rcases List.mem_append.mp hm with hm | hm
  · exact hs m hm
  · have he : planningSnapshots [Event.planned mem d] = [mem] := rfl
    rw [he] at hm
    rw [List.mem_singleton.mp hm]
    exact h

theorem runSteps_inv (env : Env) (ms : Nat) :
    ∀ fuel mem evs, IsPaired mem → (∀ m ∈ planningSnapshots evs, IsPaired m) →
      (∀ m ∈ planningSnapshots (runSteps env ms fuel mem evs).events, IsPaired m)
      ∧ IsPaired (runSteps env ms fuel mem evs).memory := by
  intro fuel
  induction fuel with
  | zero =>
    intro mem evs h hs
    refine ⟨?_, h⟩
    intro m hm
    simp only [runSteps] at hm
    rw [snapshots_append_sent] at hm
    exact hs m hm
  | succ n ih =>
    intro mem evs h hs
    simp only [runSteps]
    cases hd : env.decide (ms - (n+1)) mem with
    | directAnswer t =>
      refine ⟨?_, h⟩
      intro m hm
      simp only at hm
      rw [snapshots_append_sent] at hm
      exact snapshots_mem_append_planned evs mem _ hs h m hm
    | invalid =>
      refine ⟨?_, h⟩
      intro m hm
      simp only at hm
      rw [snapshots_append_sent] at hm
      exact snapshots_mem_append_planned evs mem _ hs h m hm
    | toolCalls calls =>
      have hps := execCalls_paired env calls mem
        (evs ++ [Event.planned mem (Decision.toolCalls calls)]) h
      have hsnap : ∀ m ∈ planningSnapshots (execCalls env calls mem
          (evs ++ [Event.planned mem (Decision.toolCalls calls)])).events, IsPaired m := by
        intro m hm
        rw [execCalls_snapshots] at hm
        exact snapshots_mem_append_planned evs mem _ hs h m hm
      rcases hex : execCalls env calls mem
          (evs ++ [Event.planned mem (Decision.toolCalls calls)]) with ⟨ctl, m', e'⟩
      rw [hex] at hps hsnap
      simp only
      rw [hex]
      cases ctl with
      | cont => exact ih m' e' hps hsnap
      | ret => exact ⟨hsnap, hps⟩
      | crashed => exact ⟨hsnap, hps⟩

theorem count_append_planned (evs : List Event) (mem : List MemEntry) (d : Decision) :
    planningCount (evs ++ [Event.planned mem d]) = planningCount evs + 1 := by
  simp [planningCount, planningSnapshots_append, planningSnapshots]

theorem runSteps_count (env : Env) (ms : Nat) :
    ∀ fuel mem evs,
      planningCount (runSteps env ms fuel mem evs).events ≤ planningCount evs + fuel := by
  intro fuel
  induction fuel with
  | zero =>
    intro mem evs
    simp only [runSteps]
    rw [planningCount, snapshots_append_sent]
    exact Nat.le_refl _
  | succ n ih =>
    intro mem evs
    simp only [runSteps]
    cases hd : env.decide (ms - (n+1)) mem with
    | directAnswer t =>
      simp only
      rw [planningCount, snapshots_append_sent, ← planningCount, count_append_planned]
      omega
    | invalid =>
      simp only
      rw [planningCount, snapshots_append_sent, ← planningCount, count_append_planned]
      omega
    | toolCalls calls =>
      have hss : planningCount (execCalls env calls mem
          (evs ++ [Event.planned mem (Decision.toolCalls calls)])).events
          = planningCount evs + 1 := by
        rw [planningCount, execCalls_snapshots, ← planningCount, count_append_planned]
      rcases hex : execCalls env calls mem
          (evs ++ [Event.planned mem (Decision.toolCalls calls)]) with ⟨ctl, m', e'⟩
      rw [hex] at hss
      simp only
      rw [hex]
      cases ctl with
      | cont =>
        have := ih m' e'
        simp only at hss ⊢
        omega
      | ret =>
        simp only at hss ⊢
        omega
      | crashed =>
        simp only at hss ⊢
        omega

/-- C5: every tool execution appends exactly one `tool_call` record
before dispatch and exactly one follow-up `tool_result` record before
the next planning decision: at every planning decision, and at the end
of the run, memory is a sequence of adjacent `tool_call`/`tool_result`
pairs with matching tool names, so the record counts agree.  (Tool
errors are recorded as `tool_result` records carrying the error dict in
`raw_result`, which matches the spec's `tool_result` OR `tool_error`
disjunction.) -/
theorem C5_call_result_pairing (env : Env) (max_steps : Nat) :
    (∀ m ∈ planningSnapshots (agentic_tool_loop env max_steps).events,
        IsPaired m ∧ countCalls m = countResults m)
    ∧ IsPaired (agentic_tool_loop env max_steps).memory
    ∧ countCalls (agentic_tool_loop env max_steps).memory
        = countResults (agentic_tool_loop env max_steps).memory := by
  have h := runSteps_inv env max_steps max_steps [] [] IsPaired.nil
    (by intro m hm; simp [planningSnapshots] at hm)
  exact ⟨fun m hm => ⟨h.1 m hm, IsPaired_counts m (h.1 m hm)⟩, h.2, IsPaired_counts _ h.2⟩

theorem C5_call_result_pairing_witness :
    IsPaired ([] : List MemEntry)
      ∧ countCalls ([] : List MemEntry) = countResults ([] : List MemEntry) :=
  (C5_call_result_pairing envAlwaysTool 1).1 []
    (by show ([] : List MemEntry) ∈ [([] : List MemEntry)]
        exact List.mem_singleton.mpr rfl)

/-- C7: the loop performs at most `max_steps` planning iterations for
every environment and budget; with budget 3 and an oracle that always
proposes a fresh (successful, non-delivery) tool call it performs
exactly 3 planning iterations and ends with the budget-exhausted
summary, which carries the last successful tool result (`ok`); whenever
the budget reaches zero the loop sends exactly the closing summary built
from the final memory. -/
theorem C7_step_budget :
    (∀ (env : Env) (max_steps : Nat),
        planningCount (agentic_tool_loop env max_steps).events ≤ max_steps)
    ∧ (∀ (env : Env) (ms : Nat) (mem : List MemEntry) (evs : List Event),
        runSteps env ms 0 mem evs
          = ⟨Outcome.exhausted, mem, evs ++ [Event.sent (exhaustMsg mem)]⟩)
    ∧ planningCount (agentic_tool_loop envAlwaysTool 3).events = 3
    ∧ sentMessages (agentic_tool_loop envAlwaysTool 3).events
        = ["I\x27ve reached the maximum processing steps for your request."
            ++ " Here\x27s the last information I have: ok"]
    ∧ (agentic_tool_loop envAlwaysTool 3).outcome = Outcome.exhausted := by
  refine ⟨?_, fun env ms mem evs => rfl, rfl, rfl, rfl⟩
  intro env max_steps
  have := runSteps_count env max_steps max_steps [] []
  simpa [planningCount, planningSnapshots] using this

/-- C2 (corrected): when a dispatched tool returns an error, the
remaining invocations of the list are abandoned and the error is
reported to the chat unless the failing tool is the delivery channel
itself — but in every case the loop then returns, ending the session:
the error is recorded in memory, yet no further planning step consumes
it (dispatch errors are not recovered by replanning). -/
theorem C2_error_ends_session (env : Env) (c : ToolCallReq) (rest : List ToolCallReq)
    (mem : List MemEntry) (evs : List Event) (input : Args)
    (hs : substitutePlaceholders mem c.tool_name c.tool_input = SubstOut.ok input)
    (he : dictError (env.dispatch c.tool_name input) = true) :
    execCalls env (c :: rest) mem evs =
      ⟨ExecCtl.ret,
        mem ++ [MemEntry.toolCall c.tool_name input,
          MemEntry.toolResult c.tool_name
            (processResult c.tool_name (env.dispatch c.tool_name input))
            (env.dispatch c.tool_name input)],
        evs ++ [Event.dispatched c.tool_name input]
          ++ (if c.tool_name == "telegram_send_message" then []
              else [Event.sent ("An error occurred with tool " ++ c.tool_name ++ ": "
                ++ pyStr (errVal (env.dispatch c.tool_name input)))])⟩ := by
  simp only [execCalls, hs, he, if_true]
  by_cases ht : (c.tool_name == "telegram_send_message") = true
  · simp [ht]
  · simp [ht]

theorem C2_error_ends_session_witness :
    execCalls envErrMidList [⟨"toolA", []⟩, ⟨"toolB", []⟩] [] [] =
      ⟨ExecCtl.ret,
        [MemEntry.toolCall "toolA" [],
          MemEntry.toolResult "toolA" (PyVal.dict [("error", PyVal.str "boom")])
            (PyVal.dict [("error", PyVal.str "boom")])],
        [Event.dispatched "toolA" [],
          Event.sent "An error occurred with tool toolA: boom"]⟩ :=
  C2_error_ends_session envErrMidList ⟨"toolA", []⟩ [⟨"toolB", []⟩] [] [] [] rfl rfl

/-- C2 counterexample: with a budget of 6 and a plan `[toolA, toolB]`
whose first dispatch errors (and `toolA` is not the delivery channel),
the loop reports the error and returns after a single planning
iteration — it does not continue to a next planning step as the claim
asserts. -/
theorem C2_counterexample :
    planningCount (agentic_tool_loop envErrMidList 6).events = 1
    ∧ dispatches (agentic_tool_loop envErrMidList 6).events = [("toolA", [])]
    ∧ sentMessages (agentic_tool_loop envErrMidList 6).events
        = ["An error occurred with tool toolA: boom"]
    ∧ (agentic_tool_loop envErrMidList 6).outcome = Outcome.returned :=
  ⟨rfl, rfl, rfl, rfl⟩

/-- C4: resolving `<url_from_ddg_search_result_N>` scans memory from
most recent to oldest for a list-of-strings `ddg_search` result and
substitutes the 1-indexed `N`-th element: a freshly appended qualifying
result is always the one found; in the concrete two-link run `N = 2`
dispatches `https://b`; `N = 5` (out of range) reports an error to the
chat, dispatches nothing further and returns; and with no qualifying
prior result the step reports an error, dispatches nothing and
returns. -/
theorem C4_ddg_placeholder_resolution :
    (∀ (mem : List MemEntry) (links : List PyVal) (raw : PyVal),
        isStrList (PyVal.list links) = true →
        findDdgLinks (mem ++ [MemEntry.toolResult "ddg_search" (PyVal.list links) raw])
          = some links)
    ∧ dispatches (agentic_tool_loop (envDdg "<url_from_ddg_search_result_2>") 2).events
        = [("ddg_search", [("query", PyVal.str "f1")]),
           ("extract_text", [("url", PyVal.str "https://b")])]
    ∧ (sentMessages (agentic_tool_loop (envDdg "<url_from_ddg_search_result_5>") 2).events
        = ["[Agent Error: Could not find link for <url_from_ddg_search_result_5>]"]
      ∧ dispatches (agentic_tool_loop (envDdg "<url_from_ddg_search_result_5>") 2).events
        = [("ddg_search", [("query", PyVal.str "f1")])]
      ∧ (agentic_tool_loop (envDdg "<url_from_ddg_search_result_5>") 2).outcome
        = Outcome.returned)
    ∧ (sentMessages (agentic_tool_loop envDdgNoResult 2).events
        = ["[Agent Error: No search results found to use for <url_from_ddg_search_result_1>]"]
      ∧ dispatches (agentic_tool_loop envDdgNoResult 2).events = []
      ∧ (agentic_tool_loop envDdgNoResult 2).outcome = Outcome.returned) := by
  refine ⟨?_, rfl, ⟨rfl, rfl, rfl⟩, ⟨rfl, rfl, rfl⟩⟩
  intro mem links raw h
  simp [findDdgLinks, List.reverse_append, h]

theorem C4_ddg_placeholder_resolution_witness :
    findDdgLinks ([] ++ [MemEntry.toolResult "ddg_search"
        (PyVal.list [PyVal.str "https://a"]) PyVal.none])
      = some [PyVal.str "https://a"] :=
  C4_ddg_placeholder_resolution.1 [] [PyVal.str "https://a"] PyVal.none rfl

theorem getD_mem {α : Type} (l : List α) (n : Nat) (d : α) (h : n < l.length) :
    l.getD n d ∈ l := by
  induction l generalizing n with
  | nil => simp at h
  | cons a t ih =>
    cases n with
    | zero => simp [List.getD]
    | succ m =>
      simp only [List.getD_cons_succ]
      exact List.mem_cons_of_mem a (ih m (by simpa using h))

theorem extracted_not_url (s : String) (hext : strStarts s "<extracted_" = true) :
    strStarts s "<url_from_ddg_search_result_" = false := by
  by_contra hcon
  rw [Bool.not_eq_false] at hcon
  simp only [strStarts] at hext hcon
  have h1 := List.isPrefixOf_iff_prefix.mp hext
  have h2 := List.isPrefixOf_iff_prefix.mp hcon
  have hle : ("<extracted_".toList).length ≤ ("<url_from_ddg_search_result_".toList).length := by
    decide
  have := List.prefix_of_prefix_length_le h1 h2 hle
  exact absurd this (by decide)

theorem sheet_branch_spec (memory : List MemEntry) (tool_name key s : String)
    (h1 : strStarts s "<url_from_ddg_search_result_" = false)
    (h2 : strStarts s "<extracted_" = false)
    (h3 : (s == "<f1_standings_extracted_and_formatted>" || s == "<f1_standings_data>") = false)
    (h4 : (s == "<sheet_id_from_gdrive_create_sheet>"
      || s == "<file_id_from_gdrive_create_sheet>") = true) :
    substituteValue memory tool_name key (PyVal.str s) ≠ ValSubst.keep
    ∧ ∀ w, substituteValue memory tool_name key (PyVal.str s) = ValSubst.repl w →
        findSheetId memory = some w := by
  simp only [substituteValue, h1, h2, h3, h4, Bool.false_eq_true, Bool.false_and, if_false,
    if_true]
  cases hf : findSheetId memory with
  | none => exact ⟨by simp, by intro w hw; simp at hw⟩
  | some v' =>
    cases v' with
    | str s' =>
      by_cases hsent : (s' == "No sheet_id found in memory") = true
      · simp only [hsent, if_true]
        exact ⟨by simp, by intro w hw; simp at hw⟩
      · rw [Bool.not_eq_true] at hsent
        simp only [hsent, Bool.false_eq_true, if_false]
        exact ⟨by simp, by intro w hw; simp only [ValSubst.repl.injEq] at hw; rw [hw]⟩
    | none => exact ⟨by simp, by intro w hw; simp only [ValSubst.repl.injEq] at hw; rw [hw]⟩
    | bool b => exact ⟨by simp, by intro w hw; simp only [ValSubst.repl.injEq] at hw; rw [hw]⟩
    | int n => exact ⟨by simp, by intro w hw; simp only [ValSubst.repl.injEq] at hw; rw [hw]⟩
    | list xs => exact ⟨by simp, by intro w hw; simp only [ValSubst.repl.injEq] at hw; rw [hw]⟩
    | dict d => exact ⟨by simp, by intro w hw; simp only [ValSubst.repl.injEq] at hw; rw [hw]⟩
    | textContent t =>
      exact ⟨by simp, by intro w hw; simp only [ValSubst.repl.injEq] at hw; rw [hw]⟩

/-- C3 (corrected): the `<url_from_ddg_search_result_N>` and
`<sheet_id/file_id_from_gdrive_create_sheet>` placeholders are never
passed through: the step replaces them with a value found in memory or
fails before dispatch (a reported error halting the plan, or an
exception); but an unresolved `<extracted_...>` placeholder is NOT a
hard error — it is silently replaced by the stand-in text
`No extracted text found for placeholder.` (row-parsed for the
tabular-write case) and the call is dispatched. -/
theorem C3_placeholder_resolution :
    (∀ (memory : List MemEntry) (tool_name key s : String),
        strStarts s "<url_from_ddg_search_result_" = true →
        substituteValue memory tool_name key (PyVal.str s) ≠ ValSubst.keep
        ∧ ∀ w, substituteValue memory tool_name key (PyVal.str s) = ValSubst.repl w →
            ∃ links, findDdgLinks memory = some links ∧ w ∈ links)
    ∧ (∀ (memory : List MemEntry) (tool_name key s : String),
        (s == "<sheet_id_from_gdrive_create_sheet>"
          || s == "<file_id_from_gdrive_create_sheet>") = true →
        substituteValue memory tool_name key (PyVal.str s) ≠ ValSubst.keep
        ∧ ∀ w, substituteValue memory tool_name key (PyVal.str s) = ValSubst.repl w →
            findSheetId memory = some w)
    ∧ (∀ (memory : List MemEntry) (tool_name key s : String),
        strStarts s "<extracted_" = true →
        findExtractedText memory = Option.none →
        substituteValue memory tool_name key (PyVal.str s)
          = ValSubst.repl (if tool_name == "gdrive_write_sheet" && key == "values"
              then parseRowsKeepEmpty noExtractedText
              else PyVal.str noExtractedText)) := by
  refine ⟨?_, ?_, ?_⟩
  · intro memory tool_name key s hsurl
    simp only [substituteValue, hsurl, if_true]
    cases hf : findDdgLinks memory with
    | none => exact ⟨by simp, by intro w hw; simp at hw⟩
    | some links =>
      by_cases hemp : links.isEmpty = true
      · simp only [hemp, if_true]
        exact ⟨by simp, by intro w hw; simp at hw⟩
      · rw [Bool.not_eq_true] at hemp
        simp only [hemp, Bool.false_eq_true, if_false]
        cases hn : pyInt? (removeAllChar ((splitChar s '_').getLastD "") '>') with
        | none => exact ⟨by simp, by intro w hw; simp at hw⟩
        | some n =>
          simp only
          split
          · rename_i hr
            refine ⟨by simp, ?_⟩
            intro w hw
            simp only [ValSubst.repl.injEq] at hw
            refine ⟨links, rfl, ?_⟩
            rw [← hw]
            apply getD_mem
            simp only [Bool.and_eq_true, decide_eq_true_eq] at hr
            omega
          · exact ⟨by simp, by intro w hw; simp at hw⟩
  · intro memory tool_name key s hsheet
    have hs' : s = "<sheet_id_from_gdrive_create_sheet>"
        ∨ s = "<file_id_from_gdrive_create_sheet>" := by
      simpa using hsheet
    rcases hs' with rfl | rfl
    · exact sheet_branch_spec memory tool_name key _ rfl rfl rfl rfl
    · exact sheet_branch_spec memory tool_name key _ rfl rfl rfl rfl
  · intro memory tool_name key s hext hfind
    have hurl := extracted_not_url s hext
    simp only [substituteValue, hurl, Bool.false_eq_true, if_false, hext, if_true, hfind]
    split <;> rfl

theorem C3_placeholder_resolution_witness :
    substituteValue [] "fetch_page" "text" (PyVal.str "<extracted_data>")
      = ValSubst.repl (if "fetch_page" == "gdrive_write_sheet" && "text" == "values"
          then parseRowsKeepEmpty noExtractedText
          else PyVal.str noExtractedText) :=
  C3_placeholder_resolution.2.2 [] "fetch_page" "text" "<extracted_data>" rfl rfl

/-- C3 counterexample: with empty memory, a plan whose argument is the
recognized placeholder `<extracted_data>` is dispatched carrying the
literal stand-in text `No extracted text found for placeholder.` — no
error is reported, the plan is not halted, and the tool receives the
stand-in as data. -/
theorem C3_counterexample :
    dispatches (agentic_tool_loop envUnresolvedExtract 1).events
      = [("fetch_page", [("text", PyVal.str "No extracted text found for placeholder.")])]
    ∧ sentMessages (agentic_tool_loop envUnresolvedExtract 1).events
      = ["I\x27ve reached the maximum processing steps for your request."
          ++ " Here\x27s the last information I have: ok"]
    ∧ (agentic_tool_loop envUnresolvedExtract 1).outcome = Outcome.exhausted :=
  ⟨rfl, rfl, rfl⟩

theorem lookup_cons_entry {α : Type} (k : String) (a : String × α) (t : List (String × α)) :
    List.lookup k (a :: t) = if k == a.1 then some a.2 else List.lookup k t := by
  cases h : (k == a.1) <;> simp [List.lookup, h]

theorem lookup_map_upd_self {α : Type} (k : String) (v : α) :
    ∀ d : List (String × α), d.any (fun p => p.1 == k) = true →
      (d.map (fun p => if p.1 == k then (k, v) else p)).lookup k = some v := by
  intro d
  induction d with
  | nil => intro hd; simp at hd
  | cons a t ih =>
    intro hd
    by_cases ha : a.1 = k
    · simp [lookup_cons_entry, ha]
    · have ha' : (a.1 == k) = false := by simp [ha]
      simp only [List.any_cons, ha', Bool.false_or] at hd
      simp [lookup_cons_entry, ha, Ne.symm ha]
      simpa using ih hd

theorem lookup_map_upd_ne {α : Type} (k k' : String) (v : α) (h : k' ≠ k) :
    ∀ d : List (String × α),
      (d.map (fun p => if p.1 == k then (k, v) else p)).lookup k' = d.lookup k' := by
  intro d
  induction d with
  | nil => rfl
  | cons a t ih =>
    by_cases ha : a.1 = k
    · simp only [List.map_cons, lookup_cons_entry, ha]
      simp [h, lookup_cons_entry]
      simpa using ih
    · simp only [List.map_cons, lookup_cons_entry]
      simp [ha, lookup_cons_entry]
      by_cases hk : k' = a.1
      · simp [hk]
      · simp [hk]
        simpa using ih

theorem lookup_none_of_not_any {α : Type} (k : String) :
    ∀ d : List (String × α), d.any (fun p => p.1 == k) = false →
      List.lookup k d = Option.none := by
  intro d
  induction d with
  | nil => intro _; rfl
  | cons a t ih =>
    intro hd
    simp only [List.any_cons, Bool.or_eq_false_iff] at hd
    have ha : ¬ k = a.1 := by
      intro hk
      rw [hk] at hd
      simp at hd
    simp [lookup_cons_entry, ha, ih hd.2]

theorem lookup_dictUpd_self {α : Type} (d : List (String × α)) (k : String) (v : α) :
    (dictUpd d k v).lookup k = some v := by
  unfold dictUpd
  split
  · rename_i hd
    exact lookup_map_upd_self k v d hd
  · rename_i hd
    rw [List.lookup_append, lookup_none_of_not_any k d (by rwa [Bool.not_eq_true] at hd)]
    simp [List.lookup]

theorem lookup_dictUpd_ne {α : Type} (d : List (String × α)) (k k' : String) (v : α)
    (h : k' ≠ k) : (dictUpd d k v).lookup k' = d.lookup k' := by
  unfold dictUpd
  split
  · exact lookup_map_upd_ne k k' v h d
  · rw [List.lookup_append]
    have h1 : List.lookup k' [(k, v)] = Option.none := by
      have hk : (k' == k) = false := by simp [h]
      simp [List.lookup, hk]
    rw [h1]
    cases hl : List.lookup k' d <;> rfl

theorem lookup_isSome_dictUpd {α : Type} (d : List (String × α)) (k n : String) (v : α)
    (h : (d.lookup n).isSome = true) : ((dictUpd d k v).lookup n).isSome = true := by
  by_cases hk : n = k
  · subst hk
    rw [lookup_dictUpd_self]
    rfl
  · rw [lookup_dictUpd_ne d k n v hk]
    exact h

theorem known_addServerTools_mono (c : ServerConfig) :
    ∀ (tools : List ToolDesc) (tm : ToolMap) (n : String),
      knownTool tm n = true → knownTool (addServerTools tm c tools) n = true := by
  intro tools
  induction tools with
  | nil => intro tm n h; exact h
  | cons hd tl ih =>
    intro tm n h
    exact ih (dictUpd tm hd.name (c, hd)) n (lookup_isSome_dictUpd tm hd.name n (c, hd) h)

theorem known_addServerTools_mem (c : ServerConfig) :
    ∀ (tools : List ToolDesc) (tm : ToolMap) (t : ToolDesc),
      t ∈ tools → knownTool (addServerTools tm c tools) t.name = true := by
  intro tools
  induction tools with
  | nil => intro tm t h; simp at h
  | cons hd tl ih =>
    intro tm t h
    rcases List.mem_cons.mp h with rfl | h
    · exact known_addServerTools_mono c tl (dictUpd tm t.name (c, t)) t.name
        (by rw [knownTool, lookup_dictUpd_self]; rfl)
    · exact ih (dictUpd tm hd.name (c, hd)) t h

theorem known_foldl_mono {β : Type} (f : ToolMap → β → ToolMap)
    (hf : ∀ tm c n, knownTool tm n = true → knownTool (f tm c) n = true) :
    ∀ (cs : List β) (tm : ToolMap) (n : String),
      knownTool tm n = true → knownTool (cs.foldl f tm) n = true := by
  intro cs
  induction cs with
  | nil => intro tm n h; exact h
  | cons a as ih =>
    intro tm n h
    exact ih (f tm a) n (hf tm a n h)

/-- C8: discovery tolerates partial failure — for every server list and
every connection outcome (`net c = Option.none` models a server whose
connection or listing raises), every tool advertised by a reachable
configured server ends up in the routing table, so `call_tool` accepts
it; an unreachable server never aborts discovery for the others. -/
theorem C8_partial_discovery (server_configs : List ServerConfig) (net : Net)
    (c : ServerConfig) (tools : List ToolDesc) (t : ToolDesc)
    (hc : c ∈ server_configs) (hn : net c = some tools) (ht : t ∈ tools) :
    knownTool (initializeMCP server_configs net) t.name = true := by
  have step_mono : ∀ (tm : ToolMap) (c' : ServerConfig) (n : String),
      knownTool tm n = true →
      knownTool (match net c' with
        | some tools => addServerTools tm c' tools
        | Option.none => tm) n = true := by
    intro tm' c' n hk
    cases hnc : net c' with
    | none => exact hk
    | some ts => exact known_addServerTools_mono c' ts tm' n hk
  have aux : ∀ (cs : List ServerConfig) (tm : ToolMap), c ∈ cs →
      knownTool (cs.foldl (fun tm config => match net config with
        | some tools => addServerTools tm config tools
        | Option.none => tm) tm) t.name = true := by
    intro cs
    induction cs with
    | nil => intro tm h; simp at h
    | cons a as ih =>
      intro tm h
      rcases List.mem_cons.mp h with rfl | h
      · simp only [List.foldl_cons, hn]
        exact known_foldl_mono _ step_mono as _ t.name
          (known_addServerTools_mem c tools tm t ht)
      · simp only [List.foldl_cons]
        exact ih _ h
  exact aux server_configs [] hc

theorem C8_partial_discovery_witness :
    knownTool (initializeMCP [cfgS1, ⟨"Down", "http://down"⟩, cfgS2] netDisjoint) "C"
      = true :=
  C8_partial_discovery [cfgS1, ⟨"Down", "http://down"⟩, cfgS2] netDisjoint cfgS2
    [⟨"C"⟩] ⟨"C"⟩ (by decide) rfl (by decide)

theorem nodup_keys_dictUpd {α : Type} (d : List (String × α)) (k : String) (v : α)
    (h : (d.map Prod.fst).Nodup) : ((dictUpd d k v).map Prod.fst).Nodup := by
  unfold dictUpd
  split
  · have he : (d.map (fun p => if p.1 == k then (k, v) else p)).map Prod.fst
        = d.map Prod.fst := by
      rw [List.map_map]
      apply List.map_congr_left
      intro p _
      by_cases hp : p.1 = k
      · simp [hp]
      · simp [hp]
    rw [he]
    exact h
  · rename_i hd
    rw [List.map_append]
    have hk : k ∉ d.map Prod.fst := by
      intro hmem
      rcases List.mem_map.mp hmem with ⟨p, hp, he⟩
      exact hd (List.any_eq_true.mpr ⟨p, hp, by simp [he]⟩)
    simp [List.nodup_append, h, hk]

theorem nodup_keys_addServerTools (c : ServerConfig) :
    ∀ (tools : List ToolDesc) (tm : ToolMap),
      (tm.map Prod.fst).Nodup → ((addServerTools tm c tools).map Prod.fst).Nodup := by
  intro tools
  induction tools with
  | nil => intro tm h; exact h
  | cons hd tl ih =>
    intro tm h
    exact ih (dictUpd tm hd.name (c, hd)) (nodup_keys_dictUpd tm hd.name (c, hd) h)

theorem route_addServerTools_keep (c : ServerConfig) :
    ∀ (tools : List ToolDesc) (tm : ToolMap) (n : String),
      routeOf tm n = some c → routeOf (addServerTools tm c tools) n = some c := by
  intro tools
  induction tools with
  | nil => intro tm n h; exact h
  | cons hd tl ih =>
    intro tm n h
    apply ih
    by_cases hk : n = hd.name
    · subst hk
      rw [routeOf, lookup_dictUpd_self]
      rfl
    · rw [routeOf, lookup_dictUpd_ne tm hd.name n (c, hd) hk]
      exact h

theorem route_addServerTools_mem (c : ServerConfig) :
    ∀ (tools : List ToolDesc) (tm : ToolMap) (t : ToolDesc),
      t ∈ tools → routeOf (addServerTools tm c tools) t.name = some c := by
  intro tools
  induction tools with
  | nil => intro tm t h; simp at h
  | cons hd tl ih =>
    intro tm t h
    rcases List.mem_cons.mp h with rfl | h
    · exact route_addServerTools_keep c tl (dictUpd tm t.name (c, t)) t.name
        (by rw [routeOf, lookup_dictUpd_self]; rfl)
    · exact ih (dictUpd tm hd.name (c, hd)) t h

/-- C9: the routing table keeps at most one live entry per tool name
(its key list is duplicate-free after every discovery pass); servers
advertising the disjoint catalogs `{A,B}` and `{C}` yield exactly the
three expected entries, each routed to its origin server; and when a
later-discovered server advertises a tool name, the final routing entry
for that name points at the later server (last-writer-wins). -/
theorem C9_routing_last_writer :
    (∀ (server_configs : List ServerConfig) (net : Net),
        ((initializeMCP server_configs net).map Prod.fst).Nodup)
    ∧ initializeMCP [cfgS1, cfgS2] netDisjoint
        = [("A", (cfgS1, ⟨"A"⟩)), ("B", (cfgS1, ⟨"B"⟩)), ("C", (cfgS2, ⟨"C"⟩))]
    ∧ (initializeMCP [cfgS1, cfgS2] netDisjoint).length = 3
    ∧ routeOf (initializeMCP [cfgS1, cfgS2] netDisjoint) "A" = some cfgS1
    ∧ routeOf (initializeMCP [cfgS1, cfgS2] netDisjoint) "B" = some cfgS1
    ∧ routeOf (initializeMCP [cfgS1, cfgS2] netDisjoint) "C" = some cfgS2
    ∧ (∀ (pre : List ServerConfig) (c : ServerConfig) (net : Net)
          (ts : List ToolDesc) (t : ToolDesc),
        net c = some ts → t ∈ ts →
        routeOf (initializeMCP (pre ++ [c]) net) t.name = some c) := by
  refine ⟨?_, rfl, rfl, rfl, rfl, rfl, ?_⟩
  · intro server_configs net
    have aux : ∀ (cs : List ServerConfig) (tm : ToolMap), (tm.map Prod.fst).Nodup →
        ((cs.foldl (fun tm config => match net config with
          | some tools => addServerTools tm config tools
          | Option.none => tm) tm).map Prod.fst).Nodup := by
      intro cs
      induction cs with
      | nil => intro tm h; exact h
      | cons a as ih =>
        intro tm h
        simp only [List.foldl_cons]
        apply ih
        cases hnc : net a with
        | none => exact h
        | some ts => exact nodup_keys_addServerTools a ts tm h
    exact aux server_configs [] (by simp)
  · intro pre c net ts t hn ht
    unfold initializeMCP
    rw [List.foldl_append]
    simp only [List.foldl_cons, List.foldl_nil, hn]
    exact route_addServerTools_mem c ts _ t ht

theorem C9_routing_last_writer_witness :
    routeOf (initializeMCP ([cfgS1] ++ [cfgS2])
        (fun c => if c.name == "S1" then some [⟨"A"⟩, ⟨"X"⟩]
          else if c.name == "S2" then some [⟨"X"⟩] else Option.none)) "X"
      = some cfgS2 :=
  C9_routing_last_writer.2.2.2.2.2.2 [cfgS1] cfgS2
    (fun c => if c.name == "S1" then some [⟨"A"⟩, ⟨"X"⟩]
      else if c.name == "S2" then some [⟨"X"⟩] else Option.none)
    [⟨"X"⟩] ⟨"X"⟩ rfl (by decide)
